import Mathlib

-- A shallow embedding of the runtime core of Aristochart (src/Aristochart.v2.js):
-- the primitive animation state machine, the registry with spatial hit testing,
-- the pointer hover dispatcher, and the frame engine. Numbers are modelled as
-- rationals; JS exceptions are modelled with Except; reference identity of
-- primitives and of shared callback objects is modelled with natural-number ids.

namespace Aristochart

/-- A JS value stored as a property of a primitive instance: a number, or some
non-numeric value (the code only distinguishes these two cases in animate). -/
inductive Val where
  | num (q : ℚ)
  | nonnum
deriving DecidableEq

/-- Reading a property of the instance (the expression this[prop]); none models
an absent or undefined property. -/
def lookupProp (p : String) : List (String × Val) → Option Val
  | [] => none
  | (k, v) :: rest => if k = p then some v else lookupProp p rest

/-- Writing a property of the instance (the statement this[prop] = value):
replaces the first binding, creates the property when absent. -/
def setProp (p : String) (v : Val) : List (String × Val) → List (String × Val)
  | [] => [(p, v)]
  | (k, w) :: rest => if k = p then (k, v) :: rest else (k, w) :: setProp p v rest

/-- The names present in the Aristochart.Easing table (source lines 861-1015). -/
def easingNames : List String :=
  ["easeInQuad", "easeOutQuad", "easeInOutQuad", "easeInCubic", "easeOutCubic",
   "easeInOutCubic", "easeInQuart", "easeOutQuart", "easeInOutQuart", "easeInQuint",
   "easeOutQuint", "easeInOutQuint", "easeInSine", "easeOutSine", "easeInOutSine",
   "easeInExpo", "easeOutExpo", "easeInOutExpo", "easeInCirc", "easeOutCirc",
   "easeInOutCirc", "easeInElastic", "easeOutElastic", "easeInOutElastic",
   "easeInBack", "easeOutBack", "easeInOutBack", "easeInBounce", "easeOutBounce",
   "easeInOutBounce"]

/-- Membership in the easing table: the truthiness of Aristochart.Easing[name]. -/
def hasEasing (name : String) : Bool := easingNames.contains name

/-- Evaluation of the polynomial entries of the easing table over the rationals.
easeInQuad (the default substituted by animate, source line 612) is the function
c * (t/d)^2 + b; a few further polynomial entries are translated alongside it.
The trigonometric and exponential entries are irrational and are never evaluated
by the runtime paths verified here, so unmatched names map to 0. -/
def applyEasing (name : String) (t b c d : ℚ) : ℚ :=
  if name = "easeInQuad" then c * (t / d) * (t / d) + b
  else if name = "easeOutQuad" then -c * (t / d) * (t / d - 2) + b
  else if name = "easeInCubic" then c * (t / d) * (t / d) * (t / d) + b
  else if name = "easeInQuart" then c * (t / d) * (t / d) * (t / d) * (t / d) + b
  else 0

/-- One entry of the animation buffer, as pushed by Primitive.prototype.animate
(source lines 601-613). The callback field holds the id of the shared callback
object, or none when no callback was supplied. -/
structure Animation where
  frame : Nat
  length : Nat
  callback : Option Nat
  property : String
  initialValue : ℚ
  range : ℚ
  easing : String
deriving DecidableEq

/-- The mutable state touched by animate and update on one primitive instance:
its properties, its animation buffer, the set of callback ids whose shared
called flag has been set (animation.callback.called, source line 665), and the
log of callback invocations in order. -/
structure St where
  props : List (String × Val)
  animationBuffer : List Animation
  calledSet : List Nat
  fireLog : List Nat
deriving DecidableEq

/-- Equality of exception-carrying results is decidable when both payloads have
decidable equality. -/
instance {α β : Type} [DecidableEq α] [DecidableEq β] : DecidableEq (Except α β) :=
  fun x y =>
    match x, y with
    | Except.ok a, Except.ok b =>
      if h : a = b then isTrue (by rw [h])
      else isFalse (fun hc => h (by injection hc))
    | Except.error a, Except.error b =>
      if h : a = b then isTrue (by rw [h])
      else isFalse (fun hc => h (by injection hc))
    | Except.ok _, Except.error _ => isFalse (fun hc => Except.noConfusion hc)
    | Except.error _, Except.ok _ => isFalse (fun hc => Except.noConfusion hc)

/-- Aristochart.Error (source lines 294-296): throws only while the global
Aristochart.DEBUG flag is true, otherwise returns normally. -/
def ariError (debug : Bool) (msg : String) : Except String Unit :=
  if debug then Except.error msg else Except.ok ()

/-- The easing lookup performed when a task is enqueued (source line 612):
Aristochart.Easing[easing] with easeInQuad substituted for a missing entry. -/
def resolveEasingName : Option String → String
  | some n => if hasEasing n then n else "easeInQuad"
  | none => "easeInQuad"

/-- The animation task pushed for one valid property entry (source lines 601-613):
frame and length start at the frame count, initialValue is the current value and
range is the signed difference to the target. -/
def mkTask (frames : Nat) (cb : Option Nat) (prop : String) (cur target : ℚ)
    (eas : String) : Animation :=
  ⟨frames, frames, cb, prop, cur, target - cur, eas⟩

/-- The per-property loop of Primitive.prototype.animate (source lines 592-614).
A property that is absent or non-numeric goes through Aristochart.Error: while
debugging this throws and aborts the loop, otherwise the continue statement
skips just that property. -/
def animateLoop (debug : Bool) (frames : Nat) (cb : Option Nat) (eas : String) :
    List (String × ℚ) → St → Except String St
  | [], st => Except.ok st
  | (prop, target) :: rest, st =>
    match lookupProp prop st.props with
    | none =>
      match ariError debug "Property does not exist" with
      | Except.error msg => Except.error msg
      | Except.ok _ => animateLoop debug frames cb eas rest st
    | some Val.nonnum =>
      match ariError debug "Property is not a number and is unanimatable" with
      | Except.error msg => Except.error msg
      | Except.ok _ => animateLoop debug frames cb eas rest st
    | some (Val.num cur) =>
      animateLoop debug frames cb eas rest
        { st with animationBuffer :=
            st.animationBuffer ++ [mkTask frames cb prop cur target eas] }

/-- Primitive.prototype.animate (source lines 588-615). The easing name is
checked against the table first (source line 590, through Aristochart.Error),
then each property entry is processed in order. The string-callback coercion of
source line 589 is outside this model: the callback argument is already either
a callback id or none. -/
def animate (debug : Bool) (st : St) (properties : List (String × ℚ)) (frames : Nat)
    (cb : Option Nat) (easing : Option String) : Except String St :=
  match easing with
  | none => animateLoop debug frames cb "easeInQuad" properties st
  | some e =>
    if e ≠ "" ∧ hasEasing e = false then
      match ariError debug "Easing function does not exist" with
      | Except.error msg => Except.error msg
      | Except.ok _ => animateLoop debug frames cb (resolveEasingName (some e)) properties st
    else animateLoop debug frames cb (resolveEasingName (some e)) properties st

/-- One pass over the animation buffer (the loop of Primitive.prototype.update,
source lines 656-667). A task with a nonzero frame count writes
initialValue + easing(length - frame + 1, 0, range, length) into its property,
decrements frame and stays in the buffer; a task at frame zero fires its
callback unless the called flag on the shared callback object is already set,
and is dropped. Returns the new buffer, properties, called set and fire log. -/
def stepAnims : List Animation → List (String × Val) → List Nat → List Nat →
    List Animation × List (String × Val) × List Nat × List Nat
  | [], props, cs, fl => ([], props, cs, fl)
  | a :: rest, props, cs, fl =>
    if a.frame ≠ 0 then
      let value := applyEasing a.easing (((a.length : ℚ) - (a.frame : ℚ)) + 1) 0
        a.range (a.length : ℚ)
      let props1 := setProp a.property (Val.num (a.initialValue + value)) props
      let r := stepAnims rest props1 cs fl
      (⟨a.frame - 1, a.length, a.callback, a.property, a.initialValue, a.range,
        a.easing⟩ :: r.1, r.2)
    else
      match a.callback with
      | none => stepAnims rest props cs fl
      | some id =>
        if id ∈ cs then stepAnims rest props cs fl
        else stepAnims rest props (id :: cs) (fl ++ [id])

/-- Primitive.prototype.update (source lines 648-672): a no-op on an empty
buffer, otherwise one stepAnims pass replacing the buffer. -/
def primUpdate (s : St) : St :=
  match s.animationBuffer with
  | [] => s
  | a :: rest =>
    let r := stepAnims (a :: rest) s.props s.calledSet s.fireLog
    ⟨r.2.1, r.1, r.2.2.1, r.2.2.2⟩

/-- n successive calls of Primitive.prototype.update. -/
def iterUpdate : Nat → St → St
  | 0, s => s
  | n + 1, s => iterUpdate n (primUpdate s)

/-- A registered primitive as seen by the registry hit test: a reference id, a
position, the optional isInside capability (Primitive.prototype.isInside is the
supplied predicate or undefined, source line 688), and the mouseEnabled flag. -/
structure RegPrimitive where
  id : Nat
  x : ℚ
  y : ℚ
  isInside : Option (ℚ → ℚ → Bool)
  mouseEnabled : Bool

/-- Whether a primitive geometrically contains the point, when it has the
isInside capability at all. -/
def hits (p : RegPrimitive) (x y : ℚ) : Bool :=
  match p.isInside with
  | some f => f (x - p.x) (y - p.y)
  | none => false

/-- Aristochart.Registry.prototype.objectsUnder (source lines 711-720): walks
the registry in order and calls primitive.isInside(x - primitive.x,
y - primitive.y) on every entry. Calling the capability on a primitive that
lacks it is a JS TypeError, modelled as an error result. -/
def objectsUnder (reg : List RegPrimitive) (x y : ℚ) :
    Except String (List RegPrimitive) :=
  match reg with
  | [] => Except.ok []
  | p :: rest =>
    match p.isInside with
    | none => Except.error "TypeError: primitive.isInside is not a function"
    | some f =>
      match objectsUnder rest x y with
      | Except.error e => Except.error e
      | Except.ok l => Except.ok (if f (x - p.x) (y - p.y) then p :: l else l)

/-- The mouseEnabled flag as left by the Primitive constructor before the data
and style merges (source lines 532 and 545-549): it defaults to true and is
forced to false when the events object has no keys. -/
def mkMouseEnabled (events : List String) : Bool :=
  match events with
  | [] => false
  | _ :: _ => true

/-- Array.prototype.indexOf on the registry: index of the first reference-equal
occurrence, or -1 when absent (source line 738). -/
def indexOfJs (l : List Nat) (p : Nat) : Int :=
  match l.findIdx? (fun q => q = p) with
  | some i => (i : Int)
  | none => -1

/-- Array.prototype.splice(start, 1): a negative start counts from the end of
the array, clamped at 0; a start at or past the end removes nothing. -/
def spliceOne (l : List Nat) (start : Int) : List Nat :=
  let s : Nat := if start < 0 then ((l.length : Int) + start).toNat else start.toNat
  l.take s ++ l.drop (s + 1)

/-- Aristochart.Registry.prototype.remove (source lines 737-739):
registry.splice(registry.indexOf(obj), 1). -/
def registryRemove (reg : List Nat) (p : Nat) : List Nat :=
  spliceOne reg (indexOfJs reg p)

-- The pointer hover dispatcher (the moved-pointer branch of
-- Aristochart.prototype.update, source lines 240-276). Primitives are tracked
-- by id; the flags list holds the ids whose _mouseover field is true, the
-- mouseBuffer list is this.mouseBuffer. Event deliveries are logged as
-- (event name, id) pairs in dispatch order; the code invokes the handler of a
-- delivered event only when the primitive defines one.

/-- Boolean membership of an id in a list of ids, used for the _mouseover flag
reads and the indexOf test against the query result. -/
def memB : Nat → List Nat → Bool
  | _, [] => false
  | a, b :: bs => if a = b then true else memB a bs

/-- The first loop (source lines 247-256): each primitive of the query result
fires mouseover, sets its flag and is appended to the buffer when its
_mouseover flag is clear, and fires mousemove otherwise. Returns the buffer,
the flags and the event log. -/
def hoverLoop1 : List Nat → List Nat → List Nat →
    List Nat × List Nat × List (String × Nat)
  | [], buffer, flags => (buffer, flags, [])
  | id :: rest, buffer, flags =>
    if memB id flags then
      let r := hoverLoop1 rest buffer flags
      (r.1, r.2.1, ("mousemove", id) :: r.2.2)
    else
      let r := hoverLoop1 rest (buffer ++ [id]) (id :: flags)
      (r.1, r.2.1, ("mouseover", id) :: r.2.2)

/-- The second loop (source lines 260-271): each buffered primitive absent from
the query result fires mouseout and clears its flag; the others are kept in the
replacement buffer. Returns the replacement buffer, the flags and the event
log. -/
def hoverLoop2 (current : List Nat) : List Nat → List Nat →
    List Nat × List Nat × List (String × Nat)
  | [], flags => ([], flags, [])
  | id :: rest, flags =>
    if memB id current then
      let r := hoverLoop2 current rest flags
      (id :: r.1, r.2.1, r.2.2)
    else
      let r := hoverLoop2 current rest (flags.erase id)
      (r.1, r.2.1, ("mouseout", id) :: r.2.2)

/-- The dispatcher state: this.mouseBuffer and the _mouseover flags of the
tracked primitives. -/
structure HoverState where
  mouseBuffer : List Nat
  flags : List Nat
deriving DecidableEq

/-- One moved-pointer hover tick over the query result current: the first loop
runs over current, the second loop runs over the grown buffer (its length is
read after the first loop has pushed, source line 261), and the buffer is
replaced. Returns the new state and the event log in dispatch order. -/
def hoverTick (current : List Nat) (s : HoverState) :
    HoverState × List (String × Nat) :=
  let r1 := hoverLoop1 current s.mouseBuffer s.flags
  let r2 := hoverLoop2 current r1.1 r1.2.1
  (⟨r2.1, r2.2.1⟩, r1.2.2 ++ r2.2.2)

/-- A primitive as seen by the registry traversal of update and render: its id
and whether its per-primitive work raises an exception this tick. -/
structure UPrim where
  id : Nat
  throws : Bool
deriving DecidableEq

/-- The body of the traversal loops of Aristochart.Registry.prototype.update
and render (source lines 745-759), applied to the list in traversal order:
there is no try block, so the first exception propagates and the remaining
entries are not visited. Returns the ids visited successfully, in order, and
whether the traversal was halted by an exception. -/
def runUpdates : List UPrim → List Nat × Bool
  | [] => ([], false)
  | p :: rest =>
    if p.throws then ([], true)
    else
      let r := runUpdates rest
      (p.id :: r.1, r.2)

/-- The registry traversal order: both loops run from the last index down to 0
(source lines 746 and 756), that is over the reverse of the registry. -/
def registryTraverse (reg : List UPrim) : List Nat × Bool :=
  runUpdates reg.reverse

/-- One tick of Aristochart.Engine.prototype.start (source lines 496-502):
while running, requestAnimFrame(tick) is issued first, then update and render
run. The first component records whether the next tick was scheduled; the
second is the result of the registry traversal of this tick. -/
def engineTick (running : Bool) (reg : List UPrim) : Bool × (List Nat × Bool) :=
  if running then (true, registryTraverse reg)
  else (false, ([], false))

/-- The definition-time checks of the Aristochart.Primitive factory (source
lines 521-522): a missing render function, then an events object supplied
without an isInside function, each through Aristochart.Error. -/
def primitiveFactoryCheck (debug : Bool) (hasRender hasEvents hasIsInside : Bool) :
    Except String Unit :=
  match (if hasRender then Except.ok () else
      ariError debug "Forgot to supply a render function when creating a primitive") with
  | Except.error e => Except.error e
  | Except.ok _ =>
    if hasEvents && !hasIsInside then
      ariError debug "Event object supplied but no isInside function supplied"
    else Except.ok ()

/-- Aristochart.Data.prototype.validateData (source lines 352-363). The line
branch routes its check through Aristochart.Error; the pie branch evaluates
Object.key(data), and Object.key is not a function, so it raises a TypeError
before Aristochart.Error is ever reached, whatever the DEBUG flag. -/
def validateData (debug : Bool) (context : String) (hasX hasY : Bool) :
    Except String Unit :=
  if context = "line" then
    if !hasX || !hasY then
      ariError debug "Invalid line data. Please specify an X property and y property"
    else Except.ok ()
  else if context = "pie" then
    Except.error "TypeError: Object.key is not a function"
  else Except.ok ()

-- Helper lemmas about property writes and iterated updates.

theorem setProp_setProp (p : String) (v w : Val) (l : List (String × Val)) :
    setProp p v (setProp p w l) = setProp p v l := by
  induction l with
  | nil => simp [setProp]
  | cons hd tl ih =>
    obtain ⟨k, u⟩ := hd
    by_cases h : k = p
    · simp [setProp, h]
    · simp [setProp, h, ih]

theorem lookupProp_setProp (p : String) (v : Val) (l : List (String × Val)) :
    lookupProp p (setProp p v l) = some v := by
  induction l with
  | nil => simp [setProp, lookupProp]
  | cons hd tl ih =>
    obtain ⟨k, u⟩ := hd
    by_cases h : k = p
    · simp [setProp, lookupProp, h]
    · simp [setProp, lookupProp, h, ih]

theorem iterUpdate_succ (n : Nat) (s : St) :
    iterUpdate (n + 1) s = primUpdate (iterUpdate n s) := by
  induction n generalizing s with
  | zero => rfl
  | succ k ih =>
    show iterUpdate (k + 1) (primUpdate s) = _
    rw [ih]
    rfl

/-- Iterating update m times on a primitive whose buffer holds one task with m
remaining frames: the last pass evaluates the easing at t = length, writes the
final value, and leaves the task at frame zero in the buffer with no callback
fired yet. -/
theorem iterUpdate_single (N : Nat) (cb : Option Nat) (p : String) (init rg : ℚ)
    (e : String) :
    ∀ m, 1 ≤ m → ∀ (props : List (String × Val)) (cs fl : List Nat),
      iterUpdate m ⟨props, [⟨m, N, cb, p, init, rg, e⟩], cs, fl⟩ =
        ⟨setProp p (Val.num (init + applyEasing e (N : ℚ) 0 rg (N : ℚ))) props,
         [⟨0, N, cb, p, init, rg, e⟩], cs, fl⟩ := by
  intro m hm
  induction m, hm using Nat.le_induction with
  | base =>
    intro props cs fl
    have harg : ((N : ℚ) - ((1 : Nat) : ℚ)) + 1 = (N : ℚ) := by push_cast; ring
    show iterUpdate 0 (primUpdate _) = _
    simp only [iterUpdate, primUpdate, stepAnims]
    norm_num [harg]
  | succ m hm ih =>
    intro props cs fl
    show iterUpdate (m + 1) ⟨props, [⟨m + 1, N, cb, p, init, rg, e⟩], cs, fl⟩ = _
    rw [iterUpdate]
    have hstep : primUpdate ⟨props, [⟨m + 1, N, cb, p, init, rg, e⟩], cs, fl⟩ =
        ⟨setProp p (Val.num (init +
            applyEasing e (((N : ℚ) - ((m + 1 : Nat) : ℚ)) + 1) 0 rg (N : ℚ))) props,
          [⟨m, N, cb, p, init, rg, e⟩], cs, fl⟩ := by
      simp [primUpdate, stepAnims]
    rw [hstep, ih, setProp_setProp]

/-- C1 (amended): after animate with frame count N at least 1, exactly N update
calls bring the property to the target exactly, with the completion callback
not yet fired; the callback fires exactly once on the following update call,
which also drops the task. -/
theorem c1_amended (p : String) (v target : ℚ) (N : Nat) (cbid : Nat)
    (hN : 1 ≤ N) :
    ∃ st1,
      animate true ⟨[(p, Val.num v)], [], [], []⟩ [(p, target)] N (some cbid) none =
        Except.ok st1 ∧
      lookupProp p (iterUpdate N st1).props = some (Val.num target) ∧
      (iterUpdate N st1).fireLog = [] ∧
      (iterUpdate (N + 1) st1).fireLog = [cbid] ∧
      (iterUpdate (N + 1) st1).animationBuffer = [] := by
  have hNz : ((N : ℚ)) ≠ 0 := Nat.cast_ne_zero.mpr (by omega)
  have hval : v + applyEasing "easeInQuad" (N : ℚ) 0 (target - v) (N : ℚ) = target := by
    simp [applyEasing, div_self hNz]
  refine ⟨⟨[(p, Val.num v)], [⟨N, N, some cbid, p, v, target - v, "easeInQuad"⟩], [], []⟩,
    ?_, ?_, ?_, ?_, ?_⟩
  · simp [animate, animateLoop, lookupProp, mkTask]
  · rw [iterUpdate_single N (some cbid) p v (target - v) "easeInQuad" N hN,
      lookupProp_setProp, hval]
  · rw [iterUpdate_single N (some cbid) p v (target - v) "easeInQuad" N hN]
  · rw [iterUpdate_succ, iterUpdate_single N (some cbid) p v (target - v) "easeInQuad" N hN]
    simp [primUpdate, stepAnims]
  · rw [iterUpdate_succ, iterUpdate_single N (some cbid) p v (target - v) "easeInQuad" N hN]
    simp [primUpdate, stepAnims]

/-- Witness for c1_amended at p = x, v = 0, target = 100, N = 2, callback id 5. -/
theorem c1_witness : 1 ≤ 2 ∧
    (∃ st1,
      animate true ⟨[("x", Val.num 0)], [], [], []⟩ [("x", 100)] 2 (some 5) none =
        Except.ok st1 ∧
      lookupProp "x" (iterUpdate 2 st1).props = some (Val.num 100) ∧
      (iterUpdate 2 st1).fireLog = [] ∧
      (iterUpdate (2 + 1) st1).fireLog = [5] ∧
      (iterUpdate (2 + 1) st1).animationBuffer = []) :=
  ⟨by decide, c1_amended "x" 0 100 2 5 (by decide)⟩

/-- C1 (counterexample to the claim as stated): animating x from 0 to 100 over
2 frames; after exactly 2 update calls the property equals the target, yet the
completion callback has fired zero times, not once. -/
theorem c1_counterexample :
    (animate true ⟨[("x", Val.num 0)], [], [], []⟩ [("x", 100)] 2 (some 0) none).map
      (fun s => ((iterUpdate 2 s).fireLog.length, lookupProp "x" (iterUpdate 2 s).props)) =
    Except.ok (0, some (Val.num 100)) := by
  norm_num [animate, animateLoop, mkTask, lookupProp, iterUpdate, primUpdate, stepAnims,
    applyEasing, setProp, Except.map]

/-- C4 (evaluation at the failing input): two tasks enqueued by two animate
calls that share one callback object (id 0), each over 1 frame. After 2 update
calls both tasks have completed, but the fire log holds a single invocation:
the called flag written onto the shared callback object by the first task
suppresses the callback of the second task. -/
theorem c4_shared_callback_suppressed :
    (animate true ⟨[("x", Val.num 0), ("y", Val.num 0)], [], [], []⟩
        [("x", 5)] 1 (some 0) none).bind
      (fun s1 => (animate true s1 [("y", 7)] 1 (some 0) none).map
        (fun s2 => (iterUpdate 2 s2).fireLog)) = Except.ok [0] := by
  norm_num +decide [animate, animateLoop, mkTask, lookupProp, iterUpdate, primUpdate,
    stepAnims, applyEasing, setProp, Except.map, Except.bind]

/-- Follows the wording of the spec, for comparison with animate: the tasks an
animate call enqueues are exactly those of the entries whose property exists
with a numeric current value, in entry order. -/
def specEnqueuedTasks (props : List (String × Val)) (entries : List (String × ℚ))
    (frames : Nat) (cb : Option Nat) (eas : String) : List Animation :=
  entries.filterMap (fun ent =>
    match lookupProp ent.1 props with
    | some (Val.num cur) => some (mkTask frames cb ent.1 cur ent.2 eas)
    | _ => none)

theorem animateLoop_debug_off (frames : Nat) (cb : Option Nat) (eas : String) :
    ∀ (entries : List (String × ℚ)) (st : St),
      animateLoop false frames cb eas entries st =
        Except.ok { st with animationBuffer :=
          st.animationBuffer ++ specEnqueuedTasks st.props entries frames cb eas } := by
  intro entries
  induction entries with
  | nil => intro st; simp [animateLoop, specEnqueuedTasks]
  | cons ent rest ih =>
    intro st
    obtain ⟨prop, target⟩ := ent
    cases h : lookupProp prop st.props with
    | none => simp [animateLoop, h, ariError, ih, specEnqueuedTasks]
    | some v =>
      cases v with
      | nonnum => simp [animateLoop, h, ariError, ih, specEnqueuedTasks]
      | num cur => simp [animateLoop, h, ih, specEnqueuedTasks]

/-- C7 (amended): with Aristochart.DEBUG false the animate call is partial
success as described: offending entries are skipped through Aristochart.Error
returning normally, every entry with an existing numeric property enqueues its
task, in order, and no error is propagated. With DEBUG true (the default) the
first offending property throws and aborts the call instead, shown by the
counterexample. -/
theorem c7_amended (st : St) (entries : List (String × ℚ)) (frames : Nat)
    (cb : Option Nat) (eas : Option String) :
    animate false st entries frames cb eas =
      Except.ok { st with animationBuffer :=
        st.animationBuffer ++
          specEnqueuedTasks st.props entries frames cb (resolveEasingName eas) } := by
  cases eas with
  | none => simpa [animate, resolveEasingName] using animateLoop_debug_off frames cb _ entries st
  | some e =>
    by_cases hc : e ≠ "" ∧ hasEasing e = false
    · simp [animate, hc, ariError, animateLoop_debug_off]
    · simp [animate, hc, ariError, animateLoop_debug_off]

/-- C7 (counterexample to the claim as stated): with the default DEBUG state of
the program, an animate call listing a non-existent property first and a valid
numeric property second aborts with the thrown error; the valid property is
never enqueued, so the call is not partial success. -/
theorem c7_counterexample :
    animate true ⟨[("x", Val.num 0)], [], [], []⟩ [("bogus", 5), ("x", 10)] 3 none none =
      Except.error "Property does not exist" := by
  simp +decide [animate, animateLoop, lookupProp, ariError]

/-- C8 (amended): with Aristochart.DEBUG false an unknown easing name is
recovered by substituting the default easeInQuad: the call behaves exactly as
if easeInQuad had been requested, and no error reaches the caller. With DEBUG
true (the default) the unknown name throws out of the call instead, shown by
the counterexample. -/
theorem c8_amended (st : St) (entries : List (String × ℚ)) (frames : Nat)
    (cb : Option Nat) (name : String) (h : hasEasing name = false) :
    animate false st entries frames cb (some name) =
      animate false st entries frames cb (some "easeInQuad") := by
  have hq : hasEasing "easeInQuad" = true := by decide
  by_cases he : name = ""
  · subst he; simp [animate, ariError, hq, resolveEasingName, h]
  · simp [animate, ariError, hq, resolveEasingName, h, he]

/-- Witness for c8_amended at the unknown name woop on a one-property state. -/
theorem c8_witness : hasEasing "woop" = false ∧
    animate false ⟨[("x", Val.num 0)], [], [], []⟩ [("x", 3)] 2 none (some "woop") =
      animate false ⟨[("x", Val.num 0)], [], [], []⟩ [("x", 3)] 2 none (some "easeInQuad") :=
  ⟨by decide, c8_amended ⟨[("x", Val.num 0)], [], [], []⟩ [("x", 3)] 2 none "woop" (by decide)⟩

/-- C8 (counterexample to the claim as stated): with the default DEBUG state of
the program, an animate call with an unknown easing name fails hard: the error
is thrown to the caller and nothing is enqueued. -/
theorem c8_counterexample :
    animate true ⟨[("x", Val.num 0)], [], [], []⟩ [("x", 5)] 2 none (some "woop") =
      Except.error "Easing function does not exist" := by
  simp +decide [animate, hasEasing, easingNames, ariError]

/-- C2 (amended): when every registered primitive has the isInside capability,
objectsUnder returns exactly the primitives whose isInside accepts the offset
point, in registry order, and the registry itself is untouched (the query is a
pure fold over it). A primitive lacking the capability is not skipped: reaching
it raises a TypeError instead, shown by the counterexample. -/
theorem c2_amended (reg : List RegPrimitive) (x y : ℚ)
    (h : ∀ p ∈ reg, p.isInside.isSome) :
    objectsUnder reg x y = Except.ok (reg.filter (fun p => hits p x y)) := by
  induction reg with
  | nil => simp [objectsUnder]
  | cons p rest ih =>
    have hp : p.isInside.isSome := h p (by simp)
    obtain ⟨f, hf⟩ := Option.isSome_iff_exists.mp hp
    have hrest : ∀ q ∈ rest, q.isInside.isSome := fun q hq => h q (by simp [hq])
    rw [objectsUnder, hf, ih hrest]
    by_cases hin : f (x - p.x) (y - p.y)
    · simp [List.filter_cons, hits, hf, hin]
    · simp [List.filter_cons, hits, hf, hin]

/-- A concrete hit-testable primitive used to witness c2_amended. -/
def wPrim : RegPrimitive :=
  ⟨1, 0, 0, some (fun a b => decide (a < 5) && decide (b < 5)), true⟩

/-- Witness for c2_amended on a one-primitive registry. -/
theorem c2_witness : (∀ p ∈ [wPrim], p.isInside.isSome) ∧
    objectsUnder [wPrim] 1 1 = Except.ok ([wPrim].filter (fun p => hits p 1 1)) :=
  ⟨by simp [wPrim], c2_amended [wPrim] 1 1 (by simp [wPrim])⟩

/-- C2 (counterexample to the claim as stated): a registry holding one
primitive that lacks the isInside capability. The claim says the query returns
with that primitive simply never matched; the code instead calls the missing
capability and the query fails with a TypeError. -/
theorem c2_counterexample :
    objectsUnder [⟨3, 0, 0, none, false⟩] 0 0 =
      Except.error "TypeError: primitive.isInside is not a function" := rfl

/-- C6 (evaluation at the failing input): a primitive constructed with no
events has mouseEnabled false, yet when it carries an isInside capability that
accepts the pointer offset, objectsUnder still returns it: the query never
consults mouseEnabled, so the primitive appears in the dispatcher query result
against the invariant. -/
theorem c6_query_ignores_mouseEnabled :
    mkMouseEnabled [] = false ∧
    objectsUnder [⟨7, 0, 0, some (fun _ _ => true), mkMouseEnabled []⟩] 0 0 =
      Except.ok [⟨7, 0, 0, some (fun _ _ => true), mkMouseEnabled []⟩] :=
  ⟨rfl, rfl⟩

/-- C5 (evaluation at the failing input): removing an absent primitive is not a
no-op: indexOf yields -1 and splice(-1, 1) deletes the last entry of the
registry. Removing a present primitive deletes its first occurrence. -/
theorem c5_remove_absent_removes_last :
    registryRemove [1, 2] 3 = [1] ∧ registryRemove [1, 2] 1 = [2] := by decide

theorem runUpdates_spec (l : List UPrim) :
    runUpdates l = ((l.takeWhile (fun p => !p.throws)).map (fun p => p.id),
      l.any (fun p => p.throws)) := by
  induction l with
  | nil => rfl
  | cons p rest ih =>
    cases h : p.throws with
    | true => simp [runUpdates, h]
    | false => simp [runUpdates, h, ih]

/-- C9 (amended): the registry traversal has no per-primitive catch: the ids
visited successfully are exactly the traversal-order prefix before the first
primitive that raises, and the traversal halts with the exception whenever any
primitive raises. The frame engine nonetheless keeps scheduling: its tick
requests the next frame before update and render run, so the next tick is
scheduled even on a tick whose traversal halted. -/
theorem c9_amended (reg : List UPrim) :
    (engineTick true reg).1 = true ∧
    (registryTraverse reg).1 =
      (reg.reverse.takeWhile (fun p => !p.throws)).map (fun p => p.id) ∧
    (registryTraverse reg).2 = reg.reverse.any (fun p => p.throws) := by
  refine ⟨rfl, ?_, ?_⟩ <;> simp [registryTraverse, runUpdates_spec]

/-- C9 (counterexample to the claim as stated): primitive 2 was added last, so
the reverse traversal visits it first; it raises, and primitive 1 is never
updated on that tick, refuting the per-primitive isolation. The next tick is
still scheduled. -/
theorem c9_counterexample :
    engineTick true [⟨1, false⟩, ⟨2, true⟩] = (true, ([], true)) := by decide

/-- C10 (evaluation at the failing input): with Aristochart.DEBUG false the
listed checks that go through Aristochart.Error do return normally, as the
claim says, but the pie invalid-data check calls the non-existent Object.key
and raises a TypeError whatever the DEBUG flag, so not every failure path is
routed through Aristochart.Error. -/
theorem c10_pie_validation_raises_regardless :
    validateData false "pie" true true =
      Except.error "TypeError: Object.key is not a function" ∧
    validateData true "pie" true true =
      Except.error "TypeError: Object.key is not a function" ∧
    validateData false "line" false true = Except.ok () ∧
    primitiveFactoryCheck false false true false = Except.ok () :=
  ⟨rfl, rfl, rfl, rfl⟩

-- The hover diff law: lemmas describing the two dispatcher loops, then C3.

theorem memB_iff (a : Nat) (l : List Nat) : memB a l = true ↔ a ∈ l := by
  induction l with
  | nil => simp [memB]
  | cons b bs ih => by_cases h : a = b <;> simp [memB, h, ih]

/-- The first hover loop run against reference set H: every queried id already
flagged (exactly the ids of H) fires mousemove, every other queried id fires
mouseover, is appended to the buffer and prepended to the flags. -/
theorem hoverLoop1_spec (H : List Nat) :
    ∀ (cur buffer flags : List Nat), cur.Nodup →
      (∀ id ∈ cur, memB id flags = memB id H) →
      hoverLoop1 cur buffer flags =
        (buffer ++ cur.filter (fun id => !memB id H),
         (cur.filter (fun id => !memB id H)).reverse ++ flags,
         cur.map (fun id => ((if memB id H then "mousemove" else "mouseover"), id))) := by
  intro cur
  induction cur with
  | nil => intro buffer flags _ _; simp [hoverLoop1]
  | cons id rest ih =>
    intro buffer flags hnd hf
    have hid : memB id flags = memB id H := hf id (by simp)
    have hrest_nd : rest.Nodup := (List.nodup_cons.mp hnd).2
    have hnotin : id ∉ rest := (List.nodup_cons.mp hnd).1
    cases hH : memB id H with
    | true =>
      have hrest : ∀ j ∈ rest, memB j flags = memB j H := fun j hj => hf j (by simp [hj])
      simp [hoverLoop1, hid, hH, ih buffer flags hrest_nd hrest]
    | false =>
      have hrest : ∀ j ∈ rest, memB j (id :: flags) = memB j H := by
        intro j hj
        have hne : j ≠ id := fun hje => hnotin (hje ▸ hj)
        rw [show memB j (id :: flags) = memB j flags by simp [memB, hne]]
        exact hf j (by simp [hj])
      simp [hoverLoop1, hid, hH, ih (buffer ++ [id]) (id :: flags) hrest_nd hrest]

/-- The replacement buffer computed by the second hover loop: the buffered ids
still present in the query result, in buffer order. -/
theorem hoverLoop2_buffer (cur : List Nat) :
    ∀ (b flags : List Nat),
      (hoverLoop2 cur b flags).1 = b.filter (fun id => memB id cur) := by
  intro b
  induction b with
  | nil => intro flags; simp [hoverLoop2]
  | cons id rest ih =>
    intro flags
    cases h : memB id cur with
    | true => simp [hoverLoop2, h, ih]
    | false => simp [hoverLoop2, h, ih]

/-- The events fired by the second hover loop: one mouseout per buffered id
absent from the query result, in buffer order. -/
theorem hoverLoop2_events (cur : List Nat) :
    ∀ (b flags : List Nat),
      (hoverLoop2 cur b flags).2.2 =
        (b.filter (fun id => !memB id cur)).map (fun id => ("mouseout", id)) := by
  intro b
  induction b with
  | nil => intro flags; simp [hoverLoop2]
  | cons id rest ih =>
    intro flags
    cases h : memB id cur with
    | true => simp [hoverLoop2, h, ih]
    | false => simp [hoverLoop2, h, ih]

theorem evg_filter_over (H cur : List Nat) :
    (cur.map (fun id => ((if memB id H then "mousemove" else "mouseover"), id))).filter
        (fun e => e.1 == "mouseover") =
      (cur.filter (fun id => !memB id H)).map (fun id => ("mouseover", id)) := by
  induction cur with
  | nil => simp
  | cons id rest ih => cases h : memB id H <;> simp +decide [List.filter_cons, h, ih]

theorem evg_filter_move (H cur : List Nat) :
    (cur.map (fun id => ((if memB id H then "mousemove" else "mouseover"), id))).filter
        (fun e => e.1 == "mousemove") =
      (cur.filter (fun id => memB id H)).map (fun id => ("mousemove", id)) := by
  induction cur with
  | nil => simp
  | cons id rest ih => cases h : memB id H <;> simp +decide [List.filter_cons, h, ih]

theorem evg_filter_out (H cur : List Nat) :
    (cur.map (fun id => ((if memB id H then "mousemove" else "mouseover"), id))).filter
        (fun e => e.1 == "mouseout") = [] := by
  induction cur with
  | nil => simp
  | cons id rest ih => cases h : memB id H <;> simp +decide [List.filter_cons, h, ih]

theorem out_map_filter (nm : String) (l : List Nat) :
    (l.map (fun id => ("mouseout", id))).filter (fun e => e.1 == nm) =
      if ("mouseout" == nm) then l.map (fun id => ("mouseout", id)) else [] := by
  induction l with
  | nil => cases h : ("mouseout" == nm) <;> simp [h]
  | cons a bs ih => cases h : ("mouseout" == nm) <;> simp [List.filter_cons, h, ih]

/-- C3 (confirmed): on a moved-pointer tick with query result current and hover
buffer H, mouseover fires exactly for current minus H, mousemove exactly for
current intersect H, mouseout exactly for H minus current (each in dispatch
order), and afterwards the hover buffer holds exactly the ids of current. The
hypotheses are the dispatcher state invariants: the query result has no
duplicate references and the flags agree with the buffer. -/
theorem c3_hover_diff (current : List Nat) (s : HoverState)
    (hc : current.Nodup)
    (hinv : ∀ id, memB id s.flags = memB id s.mouseBuffer) :
    ((hoverTick current s).2.filter (fun e => e.1 == "mouseover") =
      (current.filter (fun id => !memB id s.mouseBuffer)).map (fun id => ("mouseover", id))) ∧
    ((hoverTick current s).2.filter (fun e => e.1 == "mousemove") =
      (current.filter (fun id => memB id s.mouseBuffer)).map (fun id => ("mousemove", id))) ∧
    ((hoverTick current s).2.filter (fun e => e.1 == "mouseout") =
      (s.mouseBuffer.filter (fun id => !memB id current)).map (fun id => ("mouseout", id))) ∧
    (∀ id, id ∈ (hoverTick current s).1.mouseBuffer ↔ id ∈ current) := by
  have h1 := hoverLoop1_spec s.mouseBuffer current s.mouseBuffer s.flags hc
    (fun id _ => hinv id)
  have hsub : (current.filter (fun id => !memB id s.mouseBuffer)).filter
      (fun id => !memB id current) = [] := by
    refine List.filter_eq_nil_iff.mpr ?_
    intro a ha
    have : a ∈ current := (List.mem_filter.mp ha).1
    simp [memB_iff, this]
  have hkeep : (current.filter (fun id => !memB id s.mouseBuffer)).filter
      (fun id => memB id current) = current.filter (fun id => !memB id s.mouseBuffer) := by
    refine List.filter_eq_self.mpr ?_
    intro a ha
    have : a ∈ current := (List.mem_filter.mp ha).1
    simp [memB_iff, this]
  refine ⟨?_, ?_, ?_, ?_⟩
  · simp only [hoverTick, h1, List.filter_append, hoverLoop2_events]
    rw [evg_filter_over, hsub, List.append_nil, out_map_filter]
    simp +decide
  · simp only [hoverTick, h1, List.filter_append, hoverLoop2_events]
    rw [evg_filter_move, hsub, List.append_nil, out_map_filter]
    simp +decide
  · simp only [hoverTick, h1, List.filter_append, hoverLoop2_events]
    rw [evg_filter_out, hsub, List.append_nil, out_map_filter]
    simp +decide
  · intro id
    simp only [hoverTick, h1, hoverLoop2_buffer]
    rw [List.filter_append, hkeep]
    constructor
    · intro hmem
      rcases List.mem_append.mp hmem with hl | hr
      · exact (memB_iff id current).mp (List.mem_filter.mp hl).2
      · exact (List.mem_filter.mp hr).1
    · intro hcur
      by_cases hH : id ∈ s.mouseBuffer
      · refine List.mem_append.mpr (Or.inl (List.mem_filter.mpr ⟨hH, ?_⟩))
        simp [memB_iff, hcur]
      · refine List.mem_append.mpr (Or.inr (List.mem_filter.mpr ⟨hcur, ?_⟩))
        have hne : memB id s.mouseBuffer ≠ true :=
          fun hmemb => hH ((memB_iff id s.mouseBuffer).mp hmemb)
        simp [Bool.eq_false_iff.mpr hne]

/-- Witness for c3_hover_diff: query result current = [1, 2] against hover
buffer [2, 3]; mouseover fires for 1, mousemove for 2, mouseout for 3. -/
theorem c3_witness : ([1, 2] : List Nat).Nodup ∧
    ((hoverTick [1, 2] ⟨[2, 3], [2, 3]⟩).2.filter (fun e => e.1 == "mouseover") =
      (([1, 2] : List Nat).filter (fun id => !memB id [2, 3])).map
        (fun id => ("mouseover", id))) :=
  ⟨by decide, (c3_hover_diff [1, 2] ⟨[2, 3], [2, 3]⟩ (by decide) (fun id => rfl)).1⟩

end Aristochart
